import Mathlib

/-!
Verification of the kapi-lite conversation memory and context-assembly
pipeline.  All definitions below are shallow embeddings of the TypeScript
source: `chatService.ts` (`estimateTokenCount`, `summarizeConversation`,
`createContextMessage`, `extractSpecialContent`,
`prepareConversationContext`, the message-assembly part of
`processMessage`), `langchainMemory.ts` / `memoryManager.ts`
(`extractSvgContent`, `extractCodeContent`, `updateConversationWithContent`),
`conversationService.ts` / `indexedDBService.ts` (`addMessageToConversation`,
`createConversation`, `saveConversation`, `forkConversation`,
`getMessagePathToTarget`) and `ChatContext.tsx` (`sendMessage`).

Modelling conventions:
* JavaScript strings are Lean `String`s; all sources handled here are ASCII.
* `Date.now()` is an explicit `now : Nat` parameter; the random id suffixes
  generated with `Math.random().toString(36)` are either dropped or passed
  as explicit `suffix` parameters (they only influence id freshness).
* JavaScript truthiness of an optional string (`undefined` and `""` are
  falsy) is `strTruthy`.
* The model-invocation gateway and the LangChain memory are external
  effects; they enter as explicit oracle arguments.
* Fallible paths are total: every `try`/`catch` of the source is modelled
  by the corresponding result branch.
-/

/-- Message role (`'user' | 'assistant' | 'system'`). -/
inductive Role where
  | user : Role
  | assistant : Role
  | system : Role
deriving DecidableEq

/-- The `svgAnalysis` metadata record produced by `extractSpecialContent`. -/
structure SvgAnalysis where
  hasButtons : Bool
  buttonCount : Nat
  colors : List String
  isMockup : Bool
deriving DecidableEq

/-- `ChatMessage.metadata` from `chatService.ts`. -/
structure MessageMetadata where
  contentType : Option String
  reference : Option String
  parentMessageId : Option String
  branchId : Option String
  svgAnalysis : Option SvgAnalysis
deriving DecidableEq

def emptyMetadata : MessageMetadata :=
  ⟨none, none, none, none, none⟩

/-- A stored chat message.  The UI-only fields `status` and `isLoading`
are omitted: no persisted-state or context-assembly code path read them. -/
structure ChatMessage where
  id : String
  role : Role
  content : String
  timestamp : Nat
  metadata : Option MessageMetadata
deriving DecidableEq

/-- `Conversation.generatedContent`; an absent `svg`/`code` array behaves
exactly like an empty one in the source, so both are `List`s here. -/
structure GeneratedContent where
  svg : List String
  code : List String
  other : List (String × List String)
deriving DecidableEq

def emptyGeneratedContent : GeneratedContent := ⟨[], [], []⟩

/-- A persisted conversation record. -/
structure Conversation where
  id : String
  messages : List ChatMessage
  title : Option String
  createdAt : Nat
  lastModified : Nat
  summary : Option String
  generatedContent : Option GeneratedContent
deriving DecidableEq

/-- A LangChain-level message (`HumanMessage`/`AIMessage`/`SystemMessage`):
only a role tag and a content string survive the conversion. -/
structure LCMessage where
  role : Role
  content : String
deriving DecidableEq

/-- JavaScript truthiness of an optional string: `undefined` and `""`
are falsy, everything else is truthy. -/
def strTruthy : Option String → Bool
  | none => false
  | some s => s != ""

/-- `estimateTokenCount`: `Math.ceil(text.length / 4)`. -/
def estimateTokenCount (text : String) : Nat :=
  (text.length + 3) / 4

/-! ### String scanning

Executable embeddings of the regular expressions used by the source:
`/<svg[\s\S]*?<\/svg>/g`, ``/```[\s\S]*?```/g``,
`/<think>[\s\S]*?<\/think>/g`, the `fill="..."` colour regex and the
button-element regex (both with the `g` and `i` flags), all with
JavaScript's leftmost-match, greedy/lazy backtracking semantics. -/

/-- Index of the first occurrence of `pat` in `cs` (at or after offset
`i`, which only shifts the reported index). -/
def findSubAux (pat : List Char) : List Char → Nat → Option Nat
  | [], i => if pat.isEmpty then some i else none
  | c :: rest, i =>
    if pat.isPrefixOf (c :: rest) then some i else findSubAux pat rest (i + 1)

/-- `s.includes(t)` for strings. -/
def containsSub (s t : String) : Bool :=
  (findSubAux t.data s.data 0).isSome

/-- JavaScript `String.prototype.trim`: strip whitespace from both ends
(structural, so that it reduces inside the kernel). -/
def jsTrim (s : String) : String :=
  String.mk
    (((s.data.dropWhile Char.isWhitespace).reverse.dropWhile
      Char.isWhitespace).reverse)

/-- Length of the maximal leading run of characters satisfying `p`. -/
def charRunLen (p : Char → Bool) : List Char → Nat
  | [] => 0
  | c :: cs => if p c then charRunLen p cs + 1 else 0

/-- Case-insensitive literal match; returns the remainder on success. -/
def matchLitCI : List Char → List Char → Option (List Char)
  | [], cs => some cs
  | _ :: _, [] => none
  | l :: ls, c :: cs => if l.toLower == c.toLower then matchLitCI ls cs else none

/-- First defined element of a priority-ordered list of attempts. -/
def firstSome {α : Type} : List (Option α) → Option α
  | [] => none
  | some a :: _ => some a
  | none :: rest => firstSome rest

/-- Remainders left by a greedy `[p]*` character class, longest-consumed
first (the backtracking priority order of a greedy star). -/
def classRemainders (p : Char → Bool) (cs : List Char) : List (List Char) :=
  let n := charRunLen p cs
  (List.range (n + 1)).map (fun i => cs.drop (n - i))

/-- All matches of the lazy pattern `openP[\s\S]*?closeP` with the `g`
flag: leftmost occurrence of `openP`, then the earliest later occurrence
of `closeP`, then continue after the match. -/
def lazyMatchesAux (openP closeP : List Char) : Nat → List Char → List String
  | 0, _ => []
  | fuel + 1, cs =>
    match findSubAux openP cs 0 with
    | none => []
    | some i =>
      let afterOpen := cs.drop (i + openP.length)
      match findSubAux closeP afterOpen 0 with
      | none => []
      | some j =>
        let matchedLen := openP.length + j + closeP.length
        let matched := (cs.drop i).take matchedLen
        String.mk matched :: lazyMatchesAux openP closeP fuel (cs.drop (i + matchedLen))

/-- `content.match(/<svg[\s\S]*?<\/svg>/g)` (empty list when `null`). -/
def svgMatchesOf (s : String) : List String :=
  lazyMatchesAux "<svg".data "</svg>".data (s.data.length + 1) s.data

/-- ``content.match(/```[\s\S]*?```/g)`` (empty list when `null`). -/
def codeMatchesOf (s : String) : List String :=
  lazyMatchesAux "```".data "```".data (s.data.length + 1) s.data

/-- Remove all spans of the lazy pattern `openP[\s\S]*?closeP`
(`String.replace(regex, '')` with the `g` flag). -/
def removeLazySpans (openP closeP : List Char) : Nat → List Char → List Char
  | 0, cs => cs
  | fuel + 1, cs =>
    match findSubAux openP cs 0 with
    | none => cs
    | some i =>
      let afterOpen := cs.drop (i + openP.length)
      match findSubAux closeP afterOpen 0 with
      | none => cs
      | some j =>
        let matchedLen := openP.length + j + closeP.length
        cs.take i ++ removeLazySpans openP closeP fuel (cs.drop (i + matchedLen))

/-- `removeThinkTags`: strip `<think>...</think>` regions, then trim. -/
def removeThinkTags (text : String) : String :=
  jsTrim (String.mk (removeLazySpans "<think>".data "</think>".data
    (text.data.length + 1) text.data))

/-- `removeContextTags`: strip `<context>...</context>` regions, then trim. -/
def removeContextTags (text : String) : String :=
  jsTrim (String.mk (removeLazySpans "<context>".data "</context>".data
    (text.data.length + 1) text.data))

/-- Global scan driving a position matcher (`regex.exec` loop with the
`g` flag): try the matcher at each position, skip one character on
failure, continue after the consumed span on success. -/
def globalScan (matchAt : List Char → Option Nat) : Nat → List Char → List String
  | 0, _ => []
  | fuel + 1, cs =>
    match cs with
    | [] => []
    | _ :: rest =>
      match matchAt cs with
      | some (n + 1) =>
        String.mk (cs.take (n + 1)) :: globalScan matchAt fuel (cs.drop (n + 1))
      | _ => globalScan matchAt fuel rest

/-- Priority-descending candidate lengths `hi, hi-1, ..., lo`. -/
def descRange (hi lo : Nat) : List Nat :=
  (List.range (hi + 1 - lo)).map (fun i => hi - i)

/-- `[0-9a-f]` with the `i` flag. -/
def isHexChar (c : Char) : Bool :=
  c.isDigit || ('a' ≤ c.toLower && c.toLower ≤ 'f')

/-- Match `fill="(#[0-9a-f]\x7b3,6\x7d|rgb\([^)]+\)|[a-z]+)"` (flags `gi`)
at the head of `cs`; returns the matched length.  The three alternatives
are tried in regex order; the bounded-greedy hex run backtracks from six
digits down to three. -/
def matchColorAt (cs : List Char) : Option Nat :=
  match matchLitCI "fill=\"".data cs with
  | none => none
  | some r1 =>
    let alt1 : Option Nat :=
      match r1 with
      | '#' :: r2 =>
        let hi := min 6 (charRunLen isHexChar r2)
        firstSome ((descRange hi 3).map (fun k =>
          match r2.drop k with
          | '"' :: _ => some (6 + 1 + k + 1)
          | _ => none))
      | _ => none
    let alt2 : Option Nat :=
      match matchLitCI "rgb(".data r1 with
      | none => none
      | some r2 =>
        let m := charRunLen (fun c => c != ')') r2
        if m == 0 then none
        else match r2.drop m with
          | ')' :: '"' :: _ => some (6 + 4 + m + 2)
          | _ => none
    let alt3 : Option Nat :=
      let m := charRunLen Char.isAlpha r1
      if m == 0 then none
      else match r1.drop m with
        | '"' :: _ => some (6 + m + 1)
        | _ => none
    firstSome [alt1, alt2, alt3]

/-- All matches of the colour regex in `s` (the `colorRegex` of the source). -/
def colorMatchesOf (s : String) : List String :=
  globalScan matchColorAt (s.data.length + 1) s.data

/-- One alternative of the button regex:
`<(rect|button|g)[^>]*ATTR="[^"]*button[^"]*"[^>]*>` with flag `i`,
where `ATTR` is `class` or `id`.  Greedy character classes backtrack via
`classRemainders`; returns the remainder after a successful match. -/
def matchButtonAlt (attr : String) (cs : List Char) : Option (List Char) :=
  match matchLitCI "<".data cs with
  | none => none
  | some r0 =>
    match firstSome [matchLitCI "rect".data r0, matchLitCI "button".data r0,
        matchLitCI "g".data r0] with
    | none => none
    | some r1 =>
      let kont4 : List Char → Option (List Char) := fun r =>
        matchLitCI ">".data r
      let kont3 : List Char → Option (List Char) := fun r =>
        match matchLitCI "\"".data r with
        | none => none
        | some r' => firstSome ((classRemainders (fun c => c != '>') r').map kont4)
      let kontBtn : List Char → Option (List Char) := fun r =>
        match matchLitCI "button".data r with
        | none => none
        | some r' => firstSome ((classRemainders (fun c => c != '"') r').map kont3)
      let kontAttr : List Char → Option (List Char) := fun r =>
        match matchLitCI (attr ++ "=\"").data r with
        | none => none
        | some r' => firstSome ((classRemainders (fun c => c != '"') r').map kontBtn)
      firstSome ((classRemainders (fun c => c != '>') r1).map kontAttr)

/-- Button regex match at the head of `cs` (class alternative first, then
id, as in the source pattern); returns the matched length. -/
def matchButtonAt (cs : List Char) : Option Nat :=
  match matchButtonAlt "class" cs with
  | some r => some (cs.length - r.length)
  | none =>
    match matchButtonAlt "id" cs with
    | some r => some (cs.length - r.length)
    | none => none

/-- All matches of the button regex in `s` (the `buttonRegex` of the source). -/
def buttonMatchesOf (s : String) : List String :=
  globalScan matchButtonAt (s.data.length + 1) s.data

/-- First capture of `/"([^"]+)"/` in `s`, or `""`
(`m.match(/"([^"]+)"/)?.[1] || ''`). -/
def firstQuotedAux : Nat → List Char → Option String
  | 0, _ => none
  | fuel + 1, cs =>
    match cs with
    | [] => none
    | '"' :: rest =>
      let n := charRunLen (fun c => c != '"') rest
      if n == 0 then firstQuotedAux fuel rest
      else match rest.drop n with
        | '"' :: _ => some (String.mk (rest.take n))
        | _ => firstQuotedAux fuel rest
    | _ :: rest => firstQuotedAux fuel rest

def firstQuoted (s : String) : String :=
  (firstQuotedAux (s.data.length + 1) s.data).getD ""

/-- Order-preserving de-duplication keeping first occurrences
(`[...new Set(xs)]`). -/
def dedupFirstAux (seen : List String) : List String → List String
  | [] => []
  | x :: xs =>
    if seen.contains x then dedupFirstAux seen xs
    else x :: dedupFirstAux (x :: seen) xs

def dedupFirst (l : List String) : List String :=
  dedupFirstAux [] l

/-! ### Content Extractor (`langchainMemory.ts` pure extractors) -/

/-- `extractSvgContent`: collect every SVG match of every message, in
message order (the `matchAll` + push loop). -/
def extractSvgContent (messages : List ChatMessage) : List String :=
  messages.foldl (fun acc m => acc ++ svgMatchesOf m.content) []

/-- `extractCodeContent`: collect every fenced code-block match of every
message, in message order. -/
def extractCodeContent (messages : List ChatMessage) : List String :=
  messages.foldl (fun acc m => acc ++ codeMatchesOf m.content) []

/-! ### `extractSpecialContent` (`chatService.ts`)

The source mutates its inputs: it appends the found artifacts to the
conversation's `generatedContent` object and sets
`metadata.contentType` / `metadata.svgAnalysis` on the scanned message
objects in place.  The embedding returns the updated conversation record
as the first component and the list of (tagged) message values as the
second; a call site that passed `conversation.messages` observes both. -/

/-- The `svgAnalysis` computed for a message whose content produced the
SVG matches `svgs` (`lastSvg` is the last match). -/
def analyzeSvgMessage (m : ChatMessage) (svgs : List String) : SvgAnalysis :=
  let lastSvg := (svgs.getLast?).getD ""
  let buttonMatches := buttonMatchesOf lastSvg
  let colorMatches := colorMatchesOf lastSvg
  { hasButtons := buttonMatches.length != 0
    buttonCount := buttonMatches.length
    colors := (dedupFirst (colorMatches.map firstQuoted)).filter (fun c => c != "")
    isMockup := containsSub m.content.toLower "mockup" || containsSub lastSvg "NovaBank" }

/-- Per-message metadata tagging done inside the `extractSpecialContent`
loop: SVG matches set `contentType = 'svg'` plus `svgAnalysis`; code
matches then set `contentType = 'code'` (overwriting the SVG tag). -/
def tagMessage (m : ChatMessage) : ChatMessage :=
  let svgs := svgMatchesOf m.content
  let m1 :=
    if svgs.isEmpty then m
    else
      { m with metadata := some { (m.metadata.getD emptyMetadata) with
          contentType := some "svg"
          svgAnalysis := some (analyzeSvgMessage m svgs) } }
  let codes := codeMatchesOf m.content
  if codes.isEmpty then m1
  else
    { m1 with metadata := some { (m1.metadata.getD emptyMetadata) with
        contentType := some "code" } }

/-- One step of the `extractSpecialContent` loop on the accumulated
`generatedContent`. -/
def extractStepGC (gc : GeneratedContent) (m : ChatMessage) : GeneratedContent :=
  let svgs := svgMatchesOf m.content
  let gc1 := if svgs.isEmpty then gc else { gc with svg := gc.svg ++ svgs }
  let codes := codeMatchesOf m.content
  if codes.isEmpty then gc1 else { gc1 with code := gc1.code ++ codes }

/-- `extractSpecialContent conversation messages`: scan `messages`,
append all SVG / code matches to the conversation's `generatedContent`
(initialised to empty lists when absent), and tag the scanned messages. -/
def extractSpecialContent (conversation : Conversation)
    (messages : List ChatMessage) : Conversation × List ChatMessage :=
  let gc0 := conversation.generatedContent.getD emptyGeneratedContent
  let gc := messages.foldl extractStepGC gc0
  ({ conversation with generatedContent := some gc }, messages.map tagMessage)

/-! ### Summarizer (`summarizeConversation`, `chatService.ts`) -/

/-- The duck-typed response `content` of the model gateway: a string, an
array of parts (each part either carrying a `.text` field or not), or
some other object. -/
inductive LCContent where
  | str : String → LCContent
  | arr : List (Option String) → LCContent
  | other : LCContent
deriving DecidableEq

/-- A model-invocation oracle: the summarizer's `model.invoke`.  A thrown
exception is `Except.error`. -/
def InvokeOracle : Type := List LCMessage → Except String LCContent

/-- The fixed instruction message prepended by the Summarizer. -/
def summaryInstruction : String :=
  "Summarize the key points of this conversation. Be concise but include important details, especially any generated content, decisions made, or specific requests. This summary will be used to maintain context in an ongoing conversation."

/-- The Summarizer's per-message conversion: `user` becomes a
`HumanMessage`, everything else an `AIMessage`. -/
def toSummaryLC (m : ChatMessage) : LCMessage :=
  if m.role = Role.user then ⟨Role.user, m.content⟩ else ⟨Role.assistant, m.content⟩

/-- Rendering of the summarizer response: strings pass through, arrays
join the `.text` of object parts (others contribute `''`), anything
else yields `''`. -/
def renderSummaryContent : LCContent → String
  | LCContent.str s => s
  | LCContent.arr items => String.join (items.map (fun it => it.getD ""))
  | LCContent.other => ""

/-- `summarizeConversation`:  lists shorter than 3 messages return `''`
immediately; otherwise the oldest `min(length - 2, 10)` messages are sent
behind the instruction message, a missing selected model or any thrown
error yields `''`. -/
def summarizeConversation (selectedModel : Option String)
    (invoke : InvokeOracle) (messages : List ChatMessage) : String :=
  if messages.length < 3 then ""
  else
    let messagesToSummarize := messages.take (min (messages.length - 2) 10)
    match selectedModel with
    | none => ""
    | some _ =>
      match invoke (⟨Role.system, summaryInstruction⟩ ::
          messagesToSummarize.map toSummaryLC) with
      | Except.error _ => ""
      | Except.ok c => renderSummaryContent c

/-- Modelled from the claim's words for comparison (refinement check):
the Summarizer as claim C5 states it, i.e. `slice(0, min(length - 2, 10))`
prepended with the instruction message for EVERY message list, with no
short-list early return. -/
def summarizeConversationClaim (selectedModel : Option String)
    (invoke : InvokeOracle) (messages : List ChatMessage) : String :=
  let messagesToSummarize := messages.take (min (messages.length - 2) 10)
  match selectedModel with
  | none => ""
  | some _ =>
    match invoke (⟨Role.system, summaryInstruction⟩ ::
        messagesToSummarize.map toSummaryLC) with
    | Except.error _ => ""
    | Except.ok c => renderSummaryContent c

/-! ### Context Window Builder (`prepareConversationContext`, `chatService.ts`) -/

/-- The stored system messages tagged `reference: 'svg_context'`. -/
def isSvgContextMessage (m : ChatMessage) : Bool :=
  m.role = Role.system &&
    (match m.metadata with
     | some md => md.reference == some "svg_context"
     | none => false)

/-- The most recent stored `svg_context` system message, if any. -/
def latestSvgSystemMessage (conversation : Conversation) : Option ChatMessage :=
  (conversation.messages.filter isSvgContextMessage).getLast?

/-- The virtual summary message synthesized by the builder
(`id: summary_<now>`, `timestamp: now`). -/
def mkSummaryMessage (now : Nat) (summary : String) : ChatMessage :=
  ⟨"summary_" ++ toString now, Role.system,
    "Conversation context: " ++ summary, now, none⟩

/-- JavaScript `slice(-n)`: the last `n` elements. -/
def lastN (n : Nat) (l : List ChatMessage) : List ChatMessage :=
  l.drop (l.length - n)

/-- The newest-to-oldest accumulation loop of the builder's no-summary
branch: walk `msgs` (already reversed), skip the re-injected svg-context
message by id, stop at the first message that would push the running
total past `maxTokens`, and `unshift` kept messages onto `acc`. -/
def buildContextLoop (latest : Option ChatMessage) (maxTokens : Nat) :
    List ChatMessage → Nat → List ChatMessage → List ChatMessage
  | [], _, acc => acc
  | m :: rest, tokenCount, acc =>
    if (match latest with | some l => m.id == l.id | none => false) then
      buildContextLoop latest maxTokens rest tokenCount acc
    else if maxTokens < tokenCount + estimateTokenCount m.content then acc
    else buildContextLoop latest maxTokens rest
      (tokenCount + estimateTokenCount m.content) (m :: acc)

/-- `prepareConversationContext(conversation, maxTokens)`:  with a truthy
summary and more than 10 messages, [latest svg-context message?, virtual
summary message, last 10 messages]; otherwise walk the messages newest to
oldest under the token budget, the latest svg-context message seeded into
the accumulator (and its tokens into the running count) up front. -/
def prepareConversationContext (now : Nat) (conversation : Conversation)
    (maxTokens : Nat) : List ChatMessage :=
  if strTruthy conversation.summary && decide (10 < conversation.messages.length) then
    let summaryMessage := mkSummaryMessage now (conversation.summary.getD "")
    let recentMessages := lastN 10 conversation.messages
    match latestSvgSystemMessage conversation with
    | some l => l :: summaryMessage :: recentMessages
    | none => summaryMessage :: recentMessages
  else
    match latestSvgSystemMessage conversation with
    | some l =>
      buildContextLoop (some l) maxTokens conversation.messages.reverse
        (estimateTokenCount l.content) [l]
    | none =>
      buildContextLoop none maxTokens conversation.messages.reverse 0 []

/-! ### Turn assembly (`processMessage`, `chatService.ts`)

`processMessageContext` models the model-ready message list built by
`processMessage` before invocation: the synthesized system messages
(summary context, SVG artifact context, code artifact context, in that
order), the Context Window Builder output converted to LangChain
messages, and finally the cleaned current user message.  The
provider-specific truncation applied afterwards for non-Gemini models on
contents above 50000 characters depends on the ambient provider
selection and is outside this model. -/

/-- `createContextMessage`: a LangChain system message carrying the
summary, or nothing when the summary is falsy. -/
def createContextMessage (conversation : Conversation) : Option LCMessage :=
  if strTruthy conversation.summary then
    some ⟨Role.system, "Previous conversation summary: " ++
      conversation.summary.getD "" ++
      "\n\nContinue the conversation based on this context."⟩
  else none

/-- The fixed part of the SVG artifact system message preceding the
embedded SVG (including the two detail lines derived from it). -/
def svgContextIntro (svg : String) : String :=
  let buttonMatches := buttonMatchesOf svg
  let colorMatches := colorMatchesOf svg
  "This conversation contains an SVG mockup that was previously generated. The user is referring to elements in this mockup. You MUST modify the SVG code according to their requests and provide the complete updated SVG.\n\nImportant SVG details:\n- This is a website mockup for NovaBank\n- The mockup contains UI elements like buttons, text, and icons\n"
    ++ (if buttonMatches.length != 0 then
          "- Button elements found: " ++ toString buttonMatches.length ++ " button(s)\n"
        else "")
    ++ "\n"
    ++ (if colorMatches.length != 0 then
          "- Colors used include: " ++ String.intercalate ", " (colorMatches.take 5) ++ "\n"
        else "")
    ++ "\n\nWhen the user asks to change colors, styles, or elements in the mockup:\n1. Identify the specific element in the SVG code\n2. Make ONLY the requested changes to that element\n3. Return the COMPLETE updated SVG code IMMEDIATELY without asking for confirmation\n4. Briefly explain what changes you made\n\nDO NOT ask if the user wants you to make the change - just make it immediately.\nDO NOT ask for confirmation before making changes.\nALWAYS return the complete SVG code with your changes, not just the modified portion.\n\nHere is the current SVG content that you should modify according to user instructions:\n\n"

/-- The fixed instructional text following the embedded SVG. -/
def svgContextOutro : String :=
  "\n\nRemember: Always return the complete SVG code with your changes, not just the modified portion."

/-- The SVG artifact system message content of `processMessage`, built
around the most recent SVG. -/
def svgContextContent (svg : String) : String :=
  svgContextIntro svg ++ svg ++ svgContextOutro

/-- The fixed instructional text of the code artifact system message. -/
def codeContextIntro : String :=
  "This conversation contains code snippets that were previously shared. If the user refers to \"the code\" or asks to modify it, they are referring to this content.\n\nHere is the current code content that you should modify according to user instructions:\n\n"

/-- The code artifact system message content of `processMessage`, built
around the most recent code block. -/
def codeContextContent (code : String) : String :=
  codeContextIntro ++ code

/-- The conversion of a stored message for `model.invoke`: `user` to
`HumanMessage`, `assistant` to `AIMessage`, `system` to `SystemMessage`
(role and content preserved). -/
def toLCMessage (m : ChatMessage) : LCMessage :=
  ⟨m.role, m.content⟩

/-- The conversation after `processMessage`'s in-place
`extractSpecialContent(conversation, conversation.messages)` call:
artifacts appended to `generatedContent` and the messages tagged. -/
def updatedConversationOf (conversation : Conversation) : Conversation :=
  let e := extractSpecialContent conversation conversation.messages
  { e.1 with messages := e.2 }

/-- The synthesized system messages pushed ahead of the history by
`processMessage`: summary context, then SVG artifact context, then code
artifact context. -/
def processSystemMessages (updatedConversation : Conversation) : List LCMessage :=
  let gc := updatedConversation.generatedContent.getD emptyGeneratedContent
  (match createContextMessage updatedConversation with
   | some m => [m]
   | none => [])
  ++ (if gc.svg.isEmpty then []
      else [⟨Role.system, svgContextContent (gc.svg.getLast?.getD "")⟩])
  ++ (if gc.code.isEmpty then []
      else [⟨Role.system, codeContextContent (gc.code.getLast?.getD "")⟩])

/-- The full message list `processMessage` submits to the model:
synthesized system messages, the Context Window Builder output, then the
cleaned current user message. -/
def processMessageContext (conversation : Conversation) (message : String)
    (now maxTokens : Nat) : List LCMessage :=
  let cleanedMessage := removeThinkTags message
  let updatedConversation := updatedConversationOf conversation
  let contextMessages := prepareConversationContext now updatedConversation maxTokens
  processSystemMessages updatedConversation
    ++ contextMessages.map toLCMessage
    ++ [⟨Role.user, cleanedMessage⟩]

/-! ### Conversation Store (`conversationService.ts` / `indexedDBService.ts`)

The IndexedDB store is a keyed list of records; `get` finds by id,
`put` upserts.  Within one awaited call chain a read observes the last
completed write, which the model reflects directly. -/

abbrev Store : Type := List (String × Conversation)

/-- `indexedDBService.getConversation`. -/
def storeGet (store : Store) (id : String) : Option Conversation :=
  (store.find? (fun p => p.1 == id)).map (fun p => p.2)

/-- `indexedDBService.updateConversation` / `addConversation` (both are
keyed upserts on `conversation.id`). -/
def storePut (store : Store) (c : Conversation) : Store :=
  if store.any (fun p => p.1 == c.id) then
    store.map (fun p => if p.1 == c.id then (p.1, c) else p)
  else
    store ++ [(c.id, c)]

/-- `saveConversation`: default a falsy `lastModified` to `now`, then
upsert (the create/update split both reduce to a put). -/
def saveConversation (store : Store) (conversation : Conversation)
    (now : Nat) : Store :=
  let c :=
    if conversation.lastModified == 0 then { conversation with lastModified := now }
    else conversation
  storePut store c

/-- The happy path of `addMessageToConversation` on an already-fetched
record: push the message and bump `lastModified`. -/
def appendMessage (conversation : Conversation) (message : ChatMessage)
    (now : Nat) : Conversation :=
  { conversation with
    messages := conversation.messages ++ [message]
    lastModified := now }

/-- Merge of `options.generatedContent.other` into the stored record
(per-key append, new keys appended at the end). -/
def mergeOtherEntry (base : List (String × List String)) (k : String)
    (vs : List String) : List (String × List String) :=
  if base.any (fun p => p.1 == k) then
    base.map (fun p => if p.1 == k then (p.1, p.2 ++ vs) else p)
  else
    base ++ [(k, vs)]

def mergeOther (base : List (String × List String))
    (extra : List (String × List String)) : List (String × List String) :=
  extra.foldl (fun b p => mergeOtherEntry b p.1 p.2) base

/-- `addMessageToConversation(conversationId, message, _, options)` on a
found record: append the message, bump `lastModified`, set the summary
when `options.summary` is truthy, and append each provided
`generatedContent` list to the stored ones (initialised when absent). -/
def addMessageWithOptions (conversation : Conversation) (message : ChatMessage)
    (osummary : Option String) (ogc : Option GeneratedContent)
    (now : Nat) : Conversation :=
  let c1 := appendMessage conversation message now
  let c2 := if strTruthy osummary then { c1 with summary := osummary } else c1
  match ogc with
  | none => c2
  | some g =>
    let g0 := c2.generatedContent.getD emptyGeneratedContent
    let gsvg := if g.svg.isEmpty then g0.svg else g0.svg ++ g.svg
    let gcode := if g.code.isEmpty then g0.code else g0.code ++ g.code
    let gother := mergeOther g0.other g.other
    { c2 with generatedContent := some ⟨gsvg, gcode, gother⟩ }

/-! ### Summary update per turn (`updateConversationWithContent`,
`memoryManager.ts`)

The summarizer oracle is the total result of `summarizeConversation`
(it fails soft, so a plain `String` function).  The second component
reports whether a Summarizer call was triggered this turn. -/

def SUMMARY_THRESHOLD : Nat := 8

/-- `updateConversationWithContent(conversationId, message)` on a found
record: extract the new message's artifacts, call the Summarizer exactly
when the message count has reached the threshold and the stored summary
is falsy, then persist through `addMessageToConversation` with
`summary: summary || undefined` and the extracted content. -/
def updateConversationWithContent (summarizer : List ChatMessage → String)
    (conversation : Conversation) (message : ChatMessage)
    (now : Nat) : Conversation × Bool :=
  let svgContent := extractSvgContent [message]
  let codeContent := extractCodeContent [message]
  let summary0 := conversation.summary.getD ""
  let triggered := decide (SUMMARY_THRESHOLD ≤ conversation.messages.length) &&
    !(strTruthy conversation.summary)
  let summary1 :=
    if triggered then summarizer (conversation.messages ++ [message]) else summary0
  let osummary := if summary1 != "" then some summary1 else none
  (addMessageWithOptions conversation message osummary
      (some ⟨svgContent, codeContent, []⟩) now,
    triggered)

/-- Iterated turns: each incoming message goes through
`updateConversationWithContent`. -/
def runTurns (summarizer : List ChatMessage → String) (now : Nat)
    (conversation : Conversation) (incoming : List ChatMessage) : Conversation :=
  incoming.foldl (fun c m => (updateConversationWithContent summarizer c m now).1)
    conversation

/-! ### Conversation creation (`createConversation`, `conversationService.ts`) -/

/-- Auto-title derivation from the first message. -/
def titleFor (content : String) : String :=
  if content.toLower.startsWith "codereview:" then
    "Code Review: " ++ (content.drop 11).take 39
      ++ (if decide (61 < content.length) then "..." else "")
  else
    content.take 50 ++ (if decide (50 < content.length) then "..." else "")

/-- `createConversation(initialMessage)`: a fresh record seeded with the
message (the random id suffix is dropped; only `Date.now()` remains). -/
def createConversation (now : Nat) (initialMessage : ChatMessage) : Conversation :=
  { id := "conv_" ++ toString now
    messages := [initialMessage]
    title := some (titleFor initialMessage.content)
    createdAt := now
    lastModified := now
    summary := none
    generatedContent := none }

/-! ### Fork Engine (`forkConversation`, `indexedDBService.ts`) -/

structure ForkOptions where
  messageId : Option String
  includeAllBranches : Option Bool
  visibleMessagesOnly : Option Bool
  startFromMessage : Option Bool
deriving DecidableEq

/-- `getMessagePathToTarget`: slice to the target index (from it when
`startFromTarget`, else up to and including it); the full list when the
id is absent. -/
def getMessagePathToTarget (messages : List ChatMessage) (targetId : String)
    (startFromTarget : Bool) : List ChatMessage :=
  match messages.findIdx? (fun m => m.id == targetId) with
  | none => messages
  | some targetIndex =>
    if startFromTarget then messages.drop targetIndex
    else messages.take (targetIndex + 1)

/-- `getRelatedBranches`: the acknowledged stub returning everything. -/
def getRelatedBranches (messages : List ChatMessage) (_targetId : String)
    (_startFromTarget : Bool) : List ChatMessage :=
  messages

/-- The fresh fork id (`conv_<now>_fork_<random>`; the random suffix is
an explicit parameter). -/
def forkId (now : Nat) (suffix : String) : String :=
  "conv_" ++ toString now ++ "_fork_" ++ suffix

/-- `forkConversation(sourceConversationId, options)`: load the source
(`none` when absent), select the forked messages per the option
defaults (`includeAllBranches` defaults to true, the other flags to
false, `options.messageId` is checked for truthiness), build the new
record with a fresh id, a `Fork of ...` title, fresh timestamps and the
source's `generatedContent`, and save it. -/
def forkConversation (store : Store) (sourceConversationId : String)
    (options : ForkOptions) (now : Nat) (suffix : String) :
    Store × Option Conversation :=
  match storeGet store sourceConversationId with
  | none => (store, none)
  | some sourceConversation =>
    let includeAllBranches := options.includeAllBranches.getD true
    let visibleMessagesOnly := options.visibleMessagesOnly.getD false
    let startFromMessage := options.startFromMessage.getD false
    let forkedMessages :=
      if visibleMessagesOnly then
        if strTruthy options.messageId then
          getMessagePathToTarget sourceConversation.messages
            (options.messageId.getD "") startFromMessage
        else sourceConversation.messages
      else if !includeAllBranches then
        if strTruthy options.messageId then
          getRelatedBranches sourceConversation.messages
            (options.messageId.getD "") startFromMessage
        else sourceConversation.messages
      else sourceConversation.messages
    let newConversation : Conversation :=
      { id := forkId now suffix
        messages := forkedMessages
        title := some ("Fork of " ++ sourceConversation.title.getD "Untitled")
        createdAt := now
        lastModified := now
        summary := none
        generatedContent := sourceConversation.generatedContent }
    (saveConversation store newConversation now, some newConversation)

/-! ### Turn Orchestrator (`sendMessage`, `ChatContext.tsx`)

The turn is modelled through its effect on the persisted record of the
active conversation (the store honours read-after-write within the
awaited chain).  The AI step - `processMessageWithLangChain` together
with the LangChain memory - is an external effect, supplied as an
`AiOutcome`: a thrown invocation is `AiOutcome.err`; a successful one
carries the cleaned response plus the memory snapshots that
`saveMemoryToConversation` converts and writes back over the record's
message list (the final such write is the one that survives in the
store, so the intermediate appends it overwrites are not re-modelled). -/

/-- The outcome of the AI step of one turn. -/
inductive AiOutcome where
  | err : String → AiOutcome
  | ok : String → List LCMessage → List LCMessage → AiOutcome

/-- `convertLangChainMessages`: memory messages back to stored messages
(ids from `Date.now()`; the random suffix is dropped). -/
def roleName : Role → String
  | Role.user => "user"
  | Role.assistant => "assistant"
  | Role.system => "system"

def convertLangChainMessages (now : Nat) (msgs : List LCMessage) :
    List ChatMessage :=
  msgs.map (fun m => ⟨"msg_" ++ toString now ++ "_" ++ roleName m.role,
    m.role, m.content, now, none⟩)

/-- The user message created at the top of `sendMessage` (stores the
original text, not the context-enhanced one). -/
def mkUserMessage (now : Nat) (content : String) : ChatMessage :=
  ⟨"msg_" ++ toString now ++ "_user", Role.user, content, now, none⟩

/-- The fixed assistant-role error message `sendMessage` persists when
the AI step throws. -/
def mkAiErrorMessage (now : Nat) : ChatMessage :=
  ⟨"msg_" ++ toString now ++ "_error", Role.assistant,
    "Sorry, I encountered an error processing your request. Please try again later.",
    now, none⟩

/-- `sendMessage(messageContent)` as a function from the active
conversation record (`none` means a new conversation is created) to the
persisted record after the turn.  Blank input is rejected up front; the
user message is persisted before the AI step; an AI failure appends the
fixed error message; a success ends with `saveMemoryToConversation`
rewriting the message list from the memory snapshot (the post-SVG-note
snapshot when the response contained an SVG). -/
def sendMessage (outcome : AiOutcome) (active : Option Conversation)
    (messageContent : String) (now : Nat) : Option Conversation :=
  if jsTrim messageContent == "" then active
  else
    let userMessage := mkUserMessage now messageContent
    let conv1 :=
      match active with
      | none => createConversation now userMessage
      | some c => appendMessage c userMessage now
    match outcome with
    | AiOutcome.err _ => some (appendMessage conv1 (mkAiErrorMessage now) now)
    | AiOutcome.ok response memAfterResponse memAfterSvgNote =>
      if (svgMatchesOf response).isEmpty then
        some { conv1 with
          messages := convertLangChainMessages now memAfterResponse
          lastModified := now }
      else
        some { conv1 with
          messages := convertLangChainMessages now memAfterSvgNote
          lastModified := now }

/-! ### Helper notions and lemmas -/

/-- Total estimated token count of a message list. -/
def tokenSum (l : List ChatMessage) : Nat :=
  (l.map (fun m => estimateTokenCount m.content)).sum

/-- Keep the messages that are not the re-injected latest svg-context
message. -/
def notLatest (latest : Option ChatMessage) (m : ChatMessage) : Bool :=
  match latest with
  | some l => decide (m ≠ l)
  | none => true

theorem tokenSum_nil : tokenSum [] = 0 := rfl

theorem tokenSum_cons (m : ChatMessage) (l : List ChatMessage) :
    tokenSum (m :: l) = estimateTokenCount m.content + tokenSum l := by
  simp [tokenSum]

/-- Budget invariant of the builder's accumulation loop: if the filtered
accumulator total is at most the running count, the filtered result total
is bounded by the larger of the starting total and the budget. -/
theorem buildContextLoop_tokenSum (latest : Option ChatMessage) (B : Nat) :
    ∀ (msgs : List ChatMessage) (tC : Nat) (acc : List ChatMessage),
      tokenSum (acc.filter (notLatest latest)) ≤ tC →
      tokenSum ((buildContextLoop latest B msgs tC acc).filter (notLatest latest)) ≤
        max (tokenSum (acc.filter (notLatest latest))) B
  | [], tC, acc, _ => by
    simp only [buildContextLoop]
    exact le_max_left _ _
  | m :: rest, tC, acc, h => by
    simp only [buildContextLoop]
    split
    · exact buildContextLoop_tokenSum latest B rest tC acc h
    · next hid =>
      split
      · exact le_max_left _ _
      · next hle =>
        have hm : notLatest latest m = true := by
          cases latest with
          | none => rfl
          | some l =>
            simp only [notLatest, decide_eq_true_eq]
            intro hml
            exact hid (by simp [hml])
        have hstep : tokenSum ((m :: acc).filter (notLatest latest)) =
            estimateTokenCount m.content + tokenSum (acc.filter (notLatest latest)) := by
          rw [List.filter_cons_of_pos hm, tokenSum_cons]
        have h2 : tokenSum ((m :: acc).filter (notLatest latest)) ≤
            tC + estimateTokenCount m.content := by omega
        have ih := buildContextLoop_tokenSum latest B rest
          (tC + estimateTokenCount m.content) (m :: acc) h2
        have hB : tokenSum ((m :: acc).filter (notLatest latest)) ≤ B := by omega
        refine le_trans ih (max_le (le_trans hB (le_max_right _ _)) (le_max_right _ _))

/-- C1: for every conversation without a summary and every token budget,
`prepareConversationContext` returns a message list whose total estimated
token count (sum of `ceil(length/4)` over the included messages) does not
exceed the budget, once the always-included latest svg-context system
message is set aside. -/
theorem claim1_budget_respected (conversation : Conversation) (now maxTokens : Nat)
    (hsum : conversation.summary = none) :
    tokenSum ((prepareConversationContext now conversation maxTokens).filter
      (notLatest (latestSvgSystemMessage conversation))) ≤ maxTokens := by
  unfold prepareConversationContext
  rw [hsum]
  simp only [strTruthy, Bool.false_and, if_false]
  cases hl : latestSvgSystemMessage conversation with
  | none =>
    have h := buildContextLoop_tokenSum none maxTokens
      conversation.messages.reverse 0 [] (by simp [tokenSum])
    simpa [tokenSum] using h
  | some l =>
    have h0 : tokenSum ([l].filter (notLatest (some l))) = 0 := by
      simp [notLatest, tokenSum]
    have h := buildContextLoop_tokenSum (some l) maxTokens
      conversation.messages.reverse (estimateTokenCount l.content) [l]
      (by rw [h0]; exact Nat.zero_le _)
    rw [h0] at h
    simpa using h

def witnessMsg (i : Nat) (r : Role) (c : String) : ChatMessage :=
  ⟨"wm" ++ toString i, r, c, i, none⟩

def convW1 : Conversation :=
  ⟨"cw1", [witnessMsg 1 Role.user "hello there", witnessMsg 2 Role.assistant "hi"],
    none, 0, 0, none, none⟩

/-- C1 witness at a concrete summary-less conversation and budget. -/
theorem claim1_budget_respected_witness :
    convW1.summary = none ∧
      tokenSum ((prepareConversationContext 3 convW1 100).filter
        (notLatest (latestSvgSystemMessage convW1))) ≤ 100 :=
  ⟨rfl, claim1_budget_respected convW1 3 100 rfl⟩

def convC2 : Conversation :=
  ⟨"cw2", (List.range 9).map (fun i => witnessMsg i Role.user "hello"),
    none, 0, 0, some "the summary", none⟩

/-- C2 counterexample: a conversation with a summary and 9 messages
(count exceeds the claimed threshold of 8) does NOT yield a synthesized
system message followed by the most recent 8 messages - the builder only
enters the summary branch above 10 messages, so here it returns the
plain message walk with no system message at all. -/
theorem claim2_counterexample :
    ¬ ∃ sys : ChatMessage,
        prepareConversationContext 0 convC2 8000 =
          sys :: lastN 8 convC2.messages ∧ sys.role = Role.system := by
  rintro ⟨sys, heq, hrole⟩
  have h3 : (prepareConversationContext 0 convC2 8000).head? = some sys := by
    rw [heq]; rfl
  have h4 : (prepareConversationContext 0 convC2 8000).head? =
      some (witnessMsg 0 Role.user "hello") := by decide
  rw [h4] at h3
  injection h3 with h5
  rw [← h5] at hrole
  exact absurd hrole (by decide)

/-- C2 amended: for every conversation whose summary is truthy and whose
message count exceeds 10 (not 8), the builder returns - after the
re-injected latest svg-context system message, when present - exactly
one synthesized system message containing the summary followed by the
most recent 10 (not 8) messages verbatim, independent of the token
budget (no trimming in this branch). -/
theorem claim2_summary_window_amended (conversation : Conversation)
    (now maxTokens : Nat)
    (hsum : strTruthy conversation.summary = true)
    (hlen : 10 < conversation.messages.length) :
    prepareConversationContext now conversation maxTokens =
      (match latestSvgSystemMessage conversation with
       | some l => [l]
       | none => []) ++
      mkSummaryMessage now (conversation.summary.getD "") ::
        lastN 10 conversation.messages := by
  unfold prepareConversationContext
  have hcond : (strTruthy conversation.summary &&
      decide (10 < conversation.messages.length)) = true := by
    rw [hsum]; simpa using hlen
  rw [hcond]
  cases hl : latestSvgSystemMessage conversation <;> simp

def convC2b : Conversation :=
  ⟨"cw2b", (List.range 12).map (fun i => witnessMsg i Role.user "hello"),
    none, 0, 0, some "the summary", none⟩

/-- C2 amended witness at a concrete 12-message conversation. -/
theorem claim2_summary_window_amended_witness :
    strTruthy convC2b.summary = true ∧
      prepareConversationContext 7 convC2b 8000 =
        (match latestSvgSystemMessage convC2b with
         | some l => [l]
         | none => []) ++
        mkSummaryMessage 7 (convC2b.summary.getD "") ::
          lastN 10 convC2b.messages :=
  ⟨by decide, claim2_summary_window_amended convC2b 7 8000 (by decide) (by decide)⟩

/-- The post-extraction `generatedContent` seen by `processMessage`. -/
def updatedGC (conversation : Conversation) : GeneratedContent :=
  (updatedConversationOf conversation).generatedContent.getD emptyGeneratedContent

/-- `xs[xs.length - 1]` on a nonempty artifact list. -/
def mostRecentOf (l : List String) : String :=
  l.getLast?.getD ""

/-- The synthesized SVG artifact system message of a turn. -/
def svgArtifactMessage (conversation : Conversation) : LCMessage :=
  ⟨Role.system, svgContextContent (mostRecentOf (updatedGC conversation).svg)⟩

/-- The synthesized code artifact system message of a turn. -/
def codeArtifactMessage (conversation : Conversation) : LCMessage :=
  ⟨Role.system, codeContextContent (mostRecentOf (updatedGC conversation).code)⟩

theorem createContextMessage_role (c : Conversation) (m : LCMessage)
    (h : createContextMessage c = some m) : m.role = Role.system := by
  unfold createContextMessage at h
  split at h
  · injection h with h'; rw [← h']
  · exact absurd h (by simp)

/-- C3: for every conversation, the model-ready message list decomposes
as: the summary-context system messages (exactly the optional
`createContextMessage` output, all of role system), then one synthesized
system message per artifact type PRESENT in the post-extraction
`generatedContent` - the SVG slot holds the SVG artifact message exactly
when SVG content exists and is empty otherwise, and likewise the code
slot - then the Context Window Builder output (which contains the
builder's synthesized summary message and the history), then the current
user message.  Each artifact message is a system message embedding the
full most recent artifact of its type between fixed instructional texts,
and the artifact slots do not depend on the token budget. -/
theorem claim3_artifact_context (conversation : Conversation) (message : String)
    (now maxTokens : Nat) :
    ∃ summaryCtx svgSlot codeSlot : List LCMessage,
      summaryCtx =
        (match createContextMessage (updatedConversationOf conversation) with
         | some m => [m]
         | none => []) ∧
      (∀ m ∈ summaryCtx, m.role = Role.system) ∧
      processMessageContext conversation message now maxTokens =
        summaryCtx ++ svgSlot ++ codeSlot
          ++ (prepareConversationContext now (updatedConversationOf conversation)
              maxTokens).map toLCMessage
          ++ [⟨Role.user, removeThinkTags message⟩] ∧
      ((updatedGC conversation).svg ≠ [] →
        svgSlot = [svgArtifactMessage conversation]) ∧
      ((updatedGC conversation).svg = [] → svgSlot = []) ∧
      ((updatedGC conversation).code ≠ [] →
        codeSlot = [codeArtifactMessage conversation]) ∧
      ((updatedGC conversation).code = [] → codeSlot = []) ∧
      (svgArtifactMessage conversation).role = Role.system ∧
      (svgArtifactMessage conversation).content =
        svgContextIntro (mostRecentOf (updatedGC conversation).svg)
          ++ mostRecentOf (updatedGC conversation).svg ++ svgContextOutro ∧
      (codeArtifactMessage conversation).role = Role.system ∧
      (codeArtifactMessage conversation).content =
        codeContextIntro ++ mostRecentOf (updatedGC conversation).code := by
  refine ⟨_,
    (if (updatedGC conversation).svg.isEmpty then []
     else [svgArtifactMessage conversation]),
    (if (updatedGC conversation).code.isEmpty then []
     else [codeArtifactMessage conversation]),
    rfl, ?_, ?_, ?_, ?_, ?_, ?_, rfl, rfl, rfl, rfl⟩
  · intro m hm
    cases h : createContextMessage (updatedConversationOf conversation) with
    | none => rw [h] at hm; simp at hm
    | some m' =>
      rw [h] at hm
      simp only [List.mem_singleton] at hm
      rw [hm]
      exact createContextMessage_role _ _ h
  · simp [processMessageContext, processSystemMessages, svgArtifactMessage,
      codeArtifactMessage, mostRecentOf, updatedGC]
  · intro h
    rw [if_neg (by simp [List.isEmpty_iff, h])]
  · intro h
    rw [if_pos (by simp [List.isEmpty_iff, h])]
  · intro h
    rw [if_neg (by simp [List.isEmpty_iff, h])]
  · intro h
    rw [if_pos (by simp [List.isEmpty_iff, h])]

def convW3 : Conversation :=
  ⟨"cw3", [⟨"a1", Role.assistant, "see <svg>pic</svg> and ```js```", 1, none⟩],
    none, 0, 0, none, none⟩

/-- C3 witness at a conversation holding one SVG and one code artifact:
both artifact slots of the decomposition are discharged concretely. -/
theorem claim3_artifact_context_witness :
    (updatedGC convW3).svg ≠ [] ∧ (updatedGC convW3).code ≠ [] ∧
      ∃ summaryCtx svgSlot codeSlot : List LCMessage,
        (∀ m ∈ summaryCtx, m.role = Role.system) ∧
        processMessageContext convW3 "make it red" 0 8000 =
          summaryCtx ++ svgSlot ++ codeSlot
            ++ (prepareConversationContext 0 (updatedConversationOf convW3)
                8000).map toLCMessage
            ++ [⟨Role.user, removeThinkTags "make it red"⟩] ∧
        svgSlot = [svgArtifactMessage convW3] ∧
        codeSlot = [codeArtifactMessage convW3] := by
  refine ⟨by decide, by decide, ?_⟩
  obtain ⟨sc, so, co, _, hroles, heq, hs1, _, hc1, _, _, _, _, _⟩ :=
    claim3_artifact_context convW3 "make it red" 0 8000
  exact ⟨sc, so, co, hroles, heq, hs1 (by decide), hc1 (by decide)⟩

theorem addMessageWithOptions_summary (c : Conversation) (msg : ChatMessage)
    (os : Option String) (og : Option GeneratedContent) (now : Nat) :
    (addMessageWithOptions c msg os og now).summary =
      if strTruthy os then os else c.summary := by
  unfold addMessageWithOptions appendMessage
  cases og <;> split <;> simp

/-- One turn with a truthy stored summary leaves the summary untouched
and does not trigger the Summarizer. -/
theorem updateStep_preserves_summary (summarizer : List ChatMessage → String)
    (now : Nat) (c : Conversation) (m : ChatMessage)
    (h : strTruthy c.summary = true) :
    (updateConversationWithContent summarizer c m now).1.summary = c.summary ∧
      (updateConversationWithContent summarizer c m now).2 = false := by
  cases hs : c.summary with
  | none => rw [hs] at h; simp [strTruthy] at h
  | some s =>
    rw [hs] at h
    have hne : (s != "") = true := h
    unfold updateConversationWithContent
    rw [hs]
    simp only [strTruthy, hne, Bool.not_true, Bool.and_false, if_false,
      Option.getD_some]
    refine ⟨?_, trivial⟩
    rw [addMessageWithOptions_summary]
    simp [strTruthy, hne]

/-- C4: a Summarizer call is triggered only when the stored message
count has reached the threshold of 8 and the stored summary is not yet
set; and once a conversation carries a (nonempty) summary, any number of
further turns leaves it unchanged. -/
theorem claim4_summary_once (summarizer : List ChatMessage → String) (now : Nat)
    (conversation : Conversation) (incoming : List ChatMessage) :
    (∀ (c : Conversation) (m : ChatMessage),
        (updateConversationWithContent summarizer c m now).2 = true →
        SUMMARY_THRESHOLD ≤ c.messages.length ∧ strTruthy c.summary = false) ∧
    (strTruthy conversation.summary = true →
      (runTurns summarizer now conversation incoming).summary =
        conversation.summary) := by
  constructor
  · intro c m htrig
    unfold updateConversationWithContent at htrig
    simp only [Bool.and_eq_true, decide_eq_true_eq, Bool.not_eq_true'] at htrig
    exact htrig
  · induction incoming generalizing conversation with
    | nil => intro _; rfl
    | cons m ms ih =>
      intro h
      have hstep := updateStep_preserves_summary summarizer now conversation m h
      have h2 : strTruthy
          (updateConversationWithContent summarizer conversation m now).1.summary =
          true := by rw [hstep.1]; exact h
      calc (runTurns summarizer now conversation (m :: ms)).summary
          = (runTurns summarizer now
              (updateConversationWithContent summarizer conversation m now).1
              ms).summary := rfl
        _ = (updateConversationWithContent summarizer conversation m now).1.summary :=
            ih _ h2
        _ = conversation.summary := hstep.1

def convW4 : Conversation :=
  ⟨"cw4", (List.range 9).map (fun i => witnessMsg i Role.user "hello"),
    none, 0, 0, some "done", none⟩

/-- C4 witness: a 9-message conversation that already carries a summary
keeps it verbatim across a further turn, even against a summarizer that
would produce new text. -/
theorem claim4_summary_once_witness :
    strTruthy convW4.summary = true ∧
      (runTurns (fun _ => "NEW") 5 convW4
        [witnessMsg 20 Role.user "more"]).summary = convW4.summary :=
  ⟨by decide,
    (claim4_summary_once (fun _ => "NEW") 5 convW4
      [witnessMsg 20 Role.user "more"]).2 (by decide)⟩

/-- C5 counterexample: on a 2-message list the claim's reading (select
`slice(0, min(length - 2, 10))`, prepend the instruction, ask the model)
would return the model's answer, but `summarizeConversation` returns
`''` without any model call because of its `length < 3` early return. -/
theorem claim5_counterexample :
    summarizeConversation (some "model-1")
        (fun _ => Except.ok (LCContent.str "S"))
        [witnessMsg 1 Role.user "a", witnessMsg 2 Role.assistant "b"] = "" ∧
      summarizeConversationClaim (some "model-1")
        (fun _ => Except.ok (LCContent.str "S"))
        [witnessMsg 1 Role.user "a", witnessMsg 2 Role.assistant "b"] = "S" ∧
      ("" : String) ≠ "S" :=
  ⟨rfl, rfl, by decide⟩

/-- C5 amended: for message lists with at least 3 messages the
Summarizer behaves exactly as the claim states (oldest
`min(length - 2, 10)` messages behind the instruction message, empty
string on any error, never throwing); shorter lists return `''`
immediately without contacting the model. -/
theorem claim5_summarize_amended (selectedModel : Option String)
    (invoke : InvokeOracle) (messages : List ChatMessage) :
    (3 ≤ messages.length →
      summarizeConversation selectedModel invoke messages =
        summarizeConversationClaim selectedModel invoke messages) ∧
    (messages.length < 3 →
      summarizeConversation selectedModel invoke messages = "") ∧
    (∀ e, invoke (⟨Role.system, summaryInstruction⟩ ::
        (messages.take (min (messages.length - 2) 10)).map toSummaryLC) =
        Except.error e →
      summarizeConversation selectedModel invoke messages = "") := by
  refine ⟨?_, ?_, ?_⟩
  · intro h
    unfold summarizeConversation summarizeConversationClaim
    rw [if_neg (by omega)]
  · intro h
    unfold summarizeConversation
    rw [if_pos h]
  · intro e herr
    unfold summarizeConversation
    split
    · rfl
    · cases selectedModel with
      | none => rfl
      | some mid => simp only [herr]

/-- C5 amended witness: a 4-message list against an erroring oracle. -/
theorem claim5_summarize_amended_witness :
    3 ≤ ((List.range 4).map (fun i => witnessMsg i Role.user "hey")).length ∧
      summarizeConversation (some "model-1") (fun _ => Except.error "boom")
          ((List.range 4).map (fun i => witnessMsg i Role.user "hey")) =
        summarizeConversationClaim (some "model-1") (fun _ => Except.error "boom")
          ((List.range 4).map (fun i => witnessMsg i Role.user "hey")) :=
  ⟨by decide,
    (claim5_summarize_amended (some "model-1") (fun _ => Except.error "boom")
      ((List.range 4).map (fun i => witnessMsg i Role.user "hey"))).1 (by decide)⟩

/-- C6: when the AI step of a turn throws, `sendMessage` completes
without propagating (it is total here) and the persisted record is the
prior message list, then the user message, then exactly one
assistant-role message carrying the fixed human-readable error string. -/
theorem claim6_error_recovery (active : Option Conversation) (content e : String)
    (now : Nat) (h : jsTrim content ≠ "") :
    ∃ c, sendMessage (AiOutcome.err e) active content now = some c ∧
      c.messages = (match active with
        | some a => a.messages
        | none => []) ++ [mkUserMessage now content, mkAiErrorMessage now] ∧
      (mkAiErrorMessage now).role = Role.assistant ∧
      (mkAiErrorMessage now).content =
        "Sorry, I encountered an error processing your request. Please try again later." := by
  have h' : (jsTrim content == "") = false := by
    simpa using h
  cases active with
  | none =>
    refine ⟨appendMessage (createConversation now (mkUserMessage now content))
      (mkAiErrorMessage now) now, ?_, ?_, rfl, rfl⟩
    · simp [sendMessage, h']
    · simp [appendMessage, createConversation]
  | some a =>
    refine ⟨appendMessage (appendMessage a (mkUserMessage now content) now)
      (mkAiErrorMessage now) now, ?_, ?_, rfl, rfl⟩
    · simp [sendMessage, h']
    · simp [appendMessage]

/-- C6 witness: a concrete turn whose model invocation throws. -/
theorem claim6_error_recovery_witness :
    jsTrim "hi" ≠ "" ∧
      ∃ c, sendMessage (AiOutcome.err "network down") (some convW1) "hi" 9 = some c ∧
        c.messages = (match some convW1 with
          | some a => a.messages
          | none => []) ++ [mkUserMessage 9 "hi", mkAiErrorMessage 9] ∧
        (mkAiErrorMessage 9).role = Role.assistant ∧
        (mkAiErrorMessage 9).content =
          "Sorry, I encountered an error processing your request. Please try again later." :=
  ⟨by decide, claim6_error_recovery (some convW1) "hi" "network down" 9 (by decide)⟩

theorem findIdxGo_none (p : ChatMessage → Bool) :
    ∀ (l : List ChatMessage) (i : Nat), (∀ x ∈ l, p x = false) →
      List.findIdx? p l i = none
  | [], _, _ => rfl
  | x :: xs, i, h => by
    rw [List.findIdx?_cons]
    rw [h x (by simp)]
    simpa using findIdxGo_none p xs (i + 1) (fun y hy => h y (by simp [hy]))

theorem findIdxGo_append (p : ChatMessage → Bool) (t : ChatMessage)
    (post : List ChatMessage) (ht : p t = true) :
    ∀ (pre : List ChatMessage) (i : Nat), (∀ x ∈ pre, p x = false) →
      List.findIdx? p (pre ++ t :: post) i = some (i + pre.length)
  | [], i, _ => by simp [List.findIdx?_cons, ht]
  | x :: pre, i, h => by
    rw [List.cons_append, List.findIdx?_cons, h x (by simp)]
    rw [if_neg (by simp)]
    rw [findIdxGo_append p t post ht pre (i + 1) (fun y hy => h y (by simp [hy]))]
    congr 1
    simp
    omega

theorem take_append_cons (pre : List ChatMessage) (t : ChatMessage)
    (post : List ChatMessage) :
    (pre ++ t :: post).take (pre.length + 1) = pre ++ [t] := by
  induction pre with
  | nil => simp
  | cons a pre ih => simpa using ih

/-- `getMessagePathToTarget` when the target id does not occur. -/
theorem getMessagePathToTarget_not_found (msgs : List ChatMessage) (tid : String)
    (b : Bool) (h : ∀ m ∈ msgs, m.id ≠ tid) :
    getMessagePathToTarget msgs tid b = msgs := by
  unfold getMessagePathToTarget
  rw [findIdxGo_none _ msgs 0 (fun x hx => by simpa using h x hx)]

/-- `getMessagePathToTarget` on the first occurrence of the target id. -/
theorem getMessagePathToTarget_found (pre post : List ChatMessage)
    (target : ChatMessage) (tid : String) (b : Bool)
    (ht : target.id = tid) (hpre : ∀ m ∈ pre, m.id ≠ tid) :
    getMessagePathToTarget (pre ++ target :: post) tid b =
      if b then target :: post else pre ++ [target] := by
  unfold getMessagePathToTarget
  rw [findIdxGo_append _ target post (by simp [ht]) pre 0
    (fun x hx => by simpa using hpre x hx)]
  simp only [Nat.zero_add]
  cases b with
  | true => simp [List.drop_left]
  | false => simp [take_append_cons]

/-- C7: a fork with `visibleMessagesOnly` and a (truthy) `messageId`
produces a new conversation whose messages are the source slice from the
first message with that id to the end when `startFromMessage` is set,
the slice from the start up to and including it otherwise, and the full
source list when the id does not occur. -/
theorem claim7_fork_slice (store : Store) (sourceConversationId mid suffix : String)
    (now : Nat) (options : ForkOptions) (source : Conversation)
    (hsrc : storeGet store sourceConversationId = some source)
    (hvis : options.visibleMessagesOnly = some true)
    (hmid : options.messageId = some mid)
    (hne : mid ≠ "") :
    ∃ nc, (forkConversation store sourceConversationId options now suffix).2 =
        some nc ∧
      ((∀ m ∈ source.messages, m.id ≠ mid) → nc.messages = source.messages) ∧
      (∀ pre target post, source.messages = pre ++ target :: post →
        target.id = mid → (∀ m ∈ pre, m.id ≠ mid) →
        nc.messages = if options.startFromMessage.getD false
          then target :: post
          else pre ++ [target]) := by
  have hvm : options.visibleMessagesOnly.getD false = true := by rw [hvis]; rfl
  have hsm : strTruthy (some mid) = true := by
    simpa [strTruthy] using hne
  unfold forkConversation
  rw [hsrc]
  simp only [hvm, hmid, hsm, Option.getD_some, if_true]
  refine ⟨_, rfl, ?_, ?_⟩
  · intro h
    exact getMessagePathToTarget_not_found source.messages mid _ h
  · intro pre target post hdecomp htid hpre
    show getMessagePathToTarget source.messages mid
      (options.startFromMessage.getD false) = _
    rw [hdecomp]
    exact getMessagePathToTarget_found pre post target mid _ htid hpre

def convW7 : Conversation :=
  ⟨"src", [witnessMsg 1 Role.user "one", witnessMsg 2 Role.assistant "two",
    witnessMsg 3 Role.user "three"], some "t", 0, 1, none, none⟩

def storeW7 : Store := [("src", convW7)]

def optionsW7 : ForkOptions :=
  ⟨some "wm2", none, some true, some true⟩

/-- C7 witness: a concrete fork from the middle message onwards. -/
theorem claim7_fork_slice_witness :
    storeGet storeW7 "src" = some convW7 ∧ ("wm2" : String) ≠ "" ∧
      ∃ nc, (forkConversation storeW7 "src" optionsW7 9 "z").2 = some nc ∧
        ((∀ m ∈ convW7.messages, m.id ≠ "wm2") → nc.messages = convW7.messages) ∧
        (∀ pre target post, convW7.messages = pre ++ target :: post →
          target.id = "wm2" → (∀ m ∈ pre, m.id ≠ "wm2") →
          nc.messages = if optionsW7.startFromMessage.getD false
            then target :: post
            else pre ++ [target]) :=
  ⟨by decide, by decide,
    claim7_fork_slice storeW7 "src" "wm2" "z" 9 optionsW7 convW7
      (by decide) rfl rfl (by decide)⟩

theorem storeGet_map_put (s : Store) (c : Conversation) (k : String)
    (h : (c.id == k) = false) :
    storeGet (s.map (fun p => if p.1 == c.id then (p.1, c) else p)) k =
      storeGet s k := by
  induction s with
  | nil => rfl
  | cons p s ih =>
    unfold storeGet at ih ⊢
    by_cases hpc : p.1 = c.id
    · have hpk : ¬ ((p.1 == k) = true) := by
        rw [hpc]; simp only [h]; exact Bool.false_ne_true
      have hhead : (if p.1 == c.id then (p.1, c) else p) = (p.1, c) := by
        simp [hpc]
      have h1 : List.find? (fun q => q.1 == k)
          ((p.1, c) :: List.map (fun q => if q.1 == c.id then (q.1, c) else q) s) =
          List.find? (fun q => q.1 == k)
            (List.map (fun q => if q.1 == c.id then (q.1, c) else q) s) :=
        List.find?_cons_of_neg _ (by simpa using hpk)
      have h2 : List.find? (fun q => q.1 == k) (p :: s) =
          List.find? (fun q => q.1 == k) s :=
        List.find?_cons_of_neg _ (by simpa using hpk)
      rw [List.map_cons, hhead, h1, h2]
      exact ih
    · have hhead : (if p.1 == c.id then (p.1, c) else p) = p := by
        simp [hpc]
      by_cases hpk : p.1 = k
      · have h1 : List.find? (fun q => q.1 == k)
            (p :: List.map (fun q => if q.1 == c.id then (q.1, c) else q) s) =
            some p :=
          List.find?_cons_of_pos _ (by simpa using hpk)
        have h2 : List.find? (fun q => q.1 == k) (p :: s) = some p :=
          List.find?_cons_of_pos _ (by simpa using hpk)
        rw [List.map_cons, hhead, h1, h2]
      · have h1 : List.find? (fun q => q.1 == k)
            (p :: List.map (fun q => if q.1 == c.id then (q.1, c) else q) s) =
            List.find? (fun q => q.1 == k)
              (List.map (fun q => if q.1 == c.id then (q.1, c) else q) s) :=
          List.find?_cons_of_neg _ (by simpa using hpk)
        have h2 : List.find? (fun q => q.1 == k) (p :: s) =
            List.find? (fun q => q.1 == k) s :=
          List.find?_cons_of_neg _ (by simpa using hpk)
        rw [List.map_cons, hhead, h1, h2]
        exact ih

theorem storeGet_append_put (s : Store) (c : Conversation) (k : String)
    (h : (c.id == k) = false) :
    storeGet (s ++ [(c.id, c)]) k = storeGet s k := by
  unfold storeGet
  rw [List.find?_append]
  have h2 : List.find? (fun p => p.1 == k) [(c.id, c)] = none := by
    simp [List.find?_cons, h]
  rw [h2]
  cases List.find? (fun p => p.1 == k) s <;> rfl

/-- A keyed upsert leaves every other key's record untouched. -/
theorem storeGet_storePut_ne (store : Store) (c : Conversation) (k : String)
    (h : (c.id == k) = false) :
    storeGet (storePut store c) k = storeGet store k := by
  unfold storePut
  split
  · exact storeGet_map_put store c k h
  · exact storeGet_append_put store c k h

theorem storeGet_saveConversation_ne (store : Store) (c : Conversation)
    (now : Nat) (k : String) (h : (c.id == k) = false) :
    storeGet (saveConversation store c now) k = storeGet store k := by
  unfold saveConversation
  split
  · exact storeGet_storePut_ne store _ k h
  · exact storeGet_storePut_ne store c k h

/-- C8: forking never modifies the source conversation's stored record -
after the fork (under any options) the source id still maps to the
byte-identical record, messages and `lastModified` included; the only
hypothesis is that the freshly generated fork id differs from the source
id. -/
theorem claim8_fork_preserves_source (store : Store)
    (sourceConversationId suffix : String) (now : Nat) (options : ForkOptions)
    (source : Conversation)
    (hsrc : storeGet store sourceConversationId = some source)
    (hfresh : forkId now suffix ≠ sourceConversationId) :
    storeGet (forkConversation store sourceConversationId options now suffix).1
      sourceConversationId = some source := by
  unfold forkConversation
  rw [hsrc]
  exact (storeGet_saveConversation_ne store _ now sourceConversationId
    (by simpa using hfresh)).trans hsrc

/-- C8 witness: a concrete fork leaves the source record in place. -/
theorem claim8_fork_preserves_source_witness :
    storeGet storeW7 "src" = some convW7 ∧
      forkId 9 "z" ≠ "src" ∧
      storeGet (forkConversation storeW7 "src" optionsW7 9 "z").1 "src" =
        some convW7 :=
  ⟨by decide, by decide,
    claim8_fork_preserves_source storeW7 "src" "z" 9 optionsW7 convW7
      (by decide) (by decide)⟩

/-- The builder's accumulation loop only prepends (in chronological
order) messages drawn from the walked list onto the accumulator. -/
theorem buildContextLoop_decomp (latest : Option ChatMessage) (B : Nat) :
    ∀ (msgs : List ChatMessage) (tC : Nat) (acc : List ChatMessage),
      ∃ taken, buildContextLoop latest B msgs tC acc = taken ++ acc ∧
        List.Sublist taken.reverse msgs
  | [], _, acc => ⟨[], by simp [buildContextLoop], by simp⟩
  | m :: rest, tC, acc => by
    simp only [buildContextLoop]
    split
    · obtain ⟨taken, heq, hsub⟩ := buildContextLoop_decomp latest B rest tC acc
      exact ⟨taken, heq, hsub.cons m⟩
    · split
      · exact ⟨[], by simp, by simp⟩
      · obtain ⟨taken, heq, hsub⟩ := buildContextLoop_decomp latest B rest
          (tC + estimateTokenCount m.content) (m :: acc)
        refine ⟨taken ++ [m], ?_, ?_⟩
        · rw [heq, List.append_assoc]; rfl
        · rw [List.reverse_append, List.reverse_singleton]
          exact hsub.cons₂ m

/-- The output messages that are neither the re-injected latest
svg-context message nor the synthesized summary message. -/
def nonSynthesized (conversation : Conversation) (now : Nat)
    (m : ChatMessage) : Bool :=
  notLatest (latestSvgSystemMessage conversation) m &&
    decide (m ≠ mkSummaryMessage now (conversation.summary.getD ""))

def svgCtxMetadata : MessageMetadata :=
  { emptyMetadata with reference := some "svg_context" }

def svgCtxMsgW : ChatMessage :=
  ⟨"wsvg", Role.system, "svg note", 1, some svgCtxMetadata⟩

def convC9 : Conversation :=
  ⟨"cw9", [svgCtxMsgW, witnessMsg 2 Role.user "hello"], none, 0, 0, none, none⟩

/-- C9 counterexample: on a conversation whose stored svg-context system
message precedes a user message, the builder returns the two stored
messages in the OPPOSITE of their stored order (the svg-context message
is re-positioned to the end of the token-budget branch), so the
non-synthesized output - here the whole output - is not ordered as in
`conversation.messages` (it is not a sublist of it, although every
output element is a stored message and each appears once). -/
theorem claim9_counterexample :
    prepareConversationContext 0 convC9 8000 =
        [witnessMsg 2 Role.user "hello", svgCtxMsgW] ∧
      ¬ List.Sublist (prepareConversationContext 0 convC9 8000)
          convC9.messages := by
  refine ⟨by decide, ?_⟩
  intro h
  have hlen : (prepareConversationContext 0 convC9 8000).length =
      convC9.messages.length := by decide
  exact absurd (h.eq_of_length hlen) (by decide)

/-- C9 amended: the non-synthesized portion of the builder's output
preserves the stored relative order EXCEPT for the re-injected latest
svg-context system message: dropping that message (and the synthesized
summary message) always leaves a sublist of `conversation.messages`, and
in the no-summary branch the svg-context message is appended at the very
end of the output (in the summary branch it is prepended first and may
additionally be duplicated inside the recent window). -/
theorem claim9_order_amended (conversation : Conversation) (now maxTokens : Nat) :
    List.Sublist
      ((prepareConversationContext now conversation maxTokens).filter
        (nonSynthesized conversation now))
      conversation.messages ∧
    (conversation.summary = none →
      ∀ l, latestSvgSystemMessage conversation = some l →
        ∃ pre, prepareConversationContext now conversation maxTokens = pre ++ [l] ∧
          List.Sublist pre conversation.messages) := by
  have hrev : ∀ (taken : List ChatMessage),
      List.Sublist taken.reverse conversation.messages.reverse →
      List.Sublist taken conversation.messages := by
    intro taken h
    have := h.reverse
    simpa using this
  have hsm : nonSynthesized conversation now
      (mkSummaryMessage now (conversation.summary.getD "")) = false := by
    simp [nonSynthesized]
  constructor
  · unfold prepareConversationContext
    split
    · -- summary branch: the synthesized and re-injected leading entries
      -- are filtered out, the rest is a filtered recent window
      cases hl : latestSvgSystemMessage conversation with
      | none =>
        show List.Sublist
          (List.filter (nonSynthesized conversation now)
            (mkSummaryMessage now (conversation.summary.getD "") ::
              lastN 10 conversation.messages))
          conversation.messages
        rw [List.filter_cons_of_neg (by simp [hsm])]
        exact (List.filter_sublist _).trans (List.drop_sublist _ _)
      | some l =>
        have hlf : nonSynthesized conversation now l = false := by
          simp [nonSynthesized, notLatest, hl]
        show List.Sublist
          (List.filter (nonSynthesized conversation now)
            (l :: mkSummaryMessage now (conversation.summary.getD "") ::
              lastN 10 conversation.messages))
          conversation.messages
        rw [List.filter_cons_of_neg (by simp [hlf]),
          List.filter_cons_of_neg (by simp [hsm])]
        exact (List.filter_sublist _).trans (List.drop_sublist _ _)
    · cases hl : latestSvgSystemMessage conversation with
      | none =>
        obtain ⟨taken, heq, hsub⟩ := buildContextLoop_decomp none maxTokens
          conversation.messages.reverse 0 []
        show List.Sublist
          (List.filter (nonSynthesized conversation now)
            (buildContextLoop none maxTokens conversation.messages.reverse 0 []))
          conversation.messages
        rw [heq, List.append_nil]
        exact (List.filter_sublist _).trans (hrev taken hsub)
      | some l =>
        obtain ⟨taken, heq, hsub⟩ := buildContextLoop_decomp (some l) maxTokens
          conversation.messages.reverse (estimateTokenCount l.content) [l]
        have hlf : nonSynthesized conversation now l = false := by
          simp [nonSynthesized, notLatest, hl]
        show List.Sublist
          (List.filter (nonSynthesized conversation now)
            (buildContextLoop (some l) maxTokens conversation.messages.reverse
              (estimateTokenCount l.content) [l]))
          conversation.messages
        rw [heq, List.filter_append]
        have h2 : List.filter (nonSynthesized conversation now) [l] = [] := by
          simp [hlf]
        rw [h2, List.append_nil]
        exact (List.filter_sublist _).trans (hrev taken hsub)
  · intro hsum l hl
    unfold prepareConversationContext
    rw [hsum]
    simp only [strTruthy, Bool.false_and, if_false]
    rw [hl]
    obtain ⟨taken, heq, hsub⟩ := buildContextLoop_decomp (some l) maxTokens
      conversation.messages.reverse (estimateTokenCount l.content) [l]
    exact ⟨taken, heq, hrev taken hsub⟩

/-- C9 amended witness at the counterexample conversation. -/
theorem claim9_order_amended_witness :
    convC9.summary = none ∧
      ∃ pre, prepareConversationContext 0 convC9 8000 = pre ++ [svgCtxMsgW] ∧
        List.Sublist pre convC9.messages :=
  ⟨rfl, (claim9_order_amended convC9 0 8000).2 rfl svgCtxMsgW (by decide)⟩

theorem tagMessage_content (m : ChatMessage) :
    (tagMessage m).content = m.content := by
  by_cases h1 : (svgMatchesOf m.content).isEmpty <;>
    by_cases h2 : (codeMatchesOf m.content).isEmpty <;>
    simp [tagMessage, h1, h2]

theorem extract_foldl_acc (g : ChatMessage → List String) :
    ∀ (msgs : List ChatMessage) (acc : List String),
      msgs.foldl (fun a m => a ++ g m) acc =
        acc ++ msgs.foldl (fun a m => a ++ g m) []
  | [], acc => by simp
  | m :: ms, acc => by
    rw [List.foldl_cons, List.foldl_cons, extract_foldl_acc g ms (acc ++ g m),
      extract_foldl_acc g ms ([] ++ g m)]
    simp

theorem extractSvgContent_cons (m : ChatMessage) (ms : List ChatMessage) :
    extractSvgContent (m :: ms) = svgMatchesOf m.content ++ extractSvgContent ms := by
  unfold extractSvgContent
  rw [List.foldl_cons, extract_foldl_acc _ ms (([] : List String) ++ svgMatchesOf m.content)]
  simp

theorem extractCodeContent_cons (m : ChatMessage) (ms : List ChatMessage) :
    extractCodeContent (m :: ms) = codeMatchesOf m.content ++ extractCodeContent ms := by
  unfold extractCodeContent
  rw [List.foldl_cons, extract_foldl_acc _ ms (([] : List String) ++ codeMatchesOf m.content)]
  simp

/-- Metadata tagging does not change the extracted artifacts. -/
theorem extractSvgContent_map_tag :
    ∀ (messages : List ChatMessage),
      extractSvgContent (messages.map tagMessage) = extractSvgContent messages
  | [] => rfl
  | m :: ms => by
    rw [List.map_cons, extractSvgContent_cons, extractSvgContent_cons,
      tagMessage_content, extractSvgContent_map_tag ms]

theorem extractCodeContent_map_tag :
    ∀ (messages : List ChatMessage),
      extractCodeContent (messages.map tagMessage) = extractCodeContent messages
  | [] => rfl
  | m :: ms => by
    rw [List.map_cons, extractCodeContent_cons, extractCodeContent_cons,
      tagMessage_content, extractCodeContent_map_tag ms]

theorem extractStepGC_fields (gc : GeneratedContent) (m : ChatMessage) :
    (extractStepGC gc m).svg = gc.svg ++ svgMatchesOf m.content ∧
      (extractStepGC gc m).code = gc.code ++ codeMatchesOf m.content ∧
      (extractStepGC gc m).other = gc.other := by
  by_cases h1 : (svgMatchesOf m.content).isEmpty <;>
    by_cases h2 : (codeMatchesOf m.content).isEmpty <;>
    refine ⟨?_, ?_, ?_⟩ <;>
    simp_all [extractStepGC, List.isEmpty_iff]

theorem foldl_extractStepGC :
    ∀ (msgs : List ChatMessage) (gc : GeneratedContent),
      (msgs.foldl extractStepGC gc).svg = gc.svg ++ extractSvgContent msgs ∧
        (msgs.foldl extractStepGC gc).code = gc.code ++ extractCodeContent msgs ∧
        (msgs.foldl extractStepGC gc).other = gc.other
  | [], gc => by simp [extractSvgContent, extractCodeContent]
  | m :: ms, gc => by
    obtain ⟨h1, h2, h3⟩ := foldl_extractStepGC ms (extractStepGC gc m)
    obtain ⟨g1, g2, g3⟩ := extractStepGC_fields gc m
    rw [List.foldl_cons]
    refine ⟨?_, ?_, ?_⟩
    · rw [h1, g1, extractSvgContent_cons, List.append_assoc]
    · rw [h2, g2, extractCodeContent_cons, List.append_assoc]
    · rw [h3, g3]

def msgC10 : ChatMessage := ⟨"wm10", Role.assistant, "<svg>a</svg>", 1, none⟩

def convC10 : Conversation :=
  ⟨"cw10", [msgC10], none, 0, 0, none, some emptyGeneratedContent⟩

/-- C10 counterexample: extraction is not idempotent and mutates its
inputs.  On a conversation already holding a `generatedContent` object
(as in the source, where the object is shared and appended to in place),
one `extractSpecialContent` run returns metadata-tagged messages
(different from the input messages) and appends the artifact once; a
second run over the same message list appends it AGAIN, so the artifact
appears twice and the two runs' outputs differ. -/
theorem claim10_counterexample :
    (extractSpecialContent convC10 convC10.messages).2 ≠ convC10.messages ∧
      ((extractSpecialContent convC10 convC10.messages).1.generatedContent.getD
          emptyGeneratedContent).svg = ["<svg>a</svg>"] ∧
      ((extractSpecialContent
          { (extractSpecialContent convC10 convC10.messages).1 with
            messages := (extractSpecialContent convC10 convC10.messages).2 }
          (extractSpecialContent convC10 convC10.messages).2).1.generatedContent.getD
          emptyGeneratedContent).svg = ["<svg>a</svg>", "<svg>a</svg>"] :=
  ⟨by decide, by decide, by decide⟩

/-- C10 amended: the pure extractors are idempotent - re-running
`extractSvgContent` / `extractCodeContent` on the (even metadata-tagged)
output messages yields the identical artifact lists, one entry per
occurrence in message order - while `extractSpecialContent` appends the
extracted artifacts to the conversation's existing `generatedContent` on
every run (so consecutive runs accumulate duplicates) and returns
messages whose metadata has been tagged (the source mutates the input
message objects in place). -/
theorem claim10_extraction_amended (conversation : Conversation)
    (messages : List ChatMessage) :
    extractSvgContent ((extractSpecialContent conversation messages).2) =
        extractSvgContent messages ∧
      extractCodeContent ((extractSpecialContent conversation messages).2) =
        extractCodeContent messages ∧
      ((extractSpecialContent conversation messages).1.generatedContent.getD
          emptyGeneratedContent).svg =
        (conversation.generatedContent.getD emptyGeneratedContent).svg ++
          extractSvgContent messages ∧
      ((extractSpecialContent conversation messages).1.generatedContent.getD
          emptyGeneratedContent).code =
        (conversation.generatedContent.getD emptyGeneratedContent).code ++
          extractCodeContent messages := by
  obtain ⟨h1, h2, _⟩ := foldl_extractStepGC messages
    (conversation.generatedContent.getD emptyGeneratedContent)
  exact ⟨extractSvgContent_map_tag messages, extractCodeContent_map_tag messages,
    h1, h2⟩
